import Mathlib

/-!
Shallow embedding of the sealfs client/daemon core (client connection
multiplexer, daemon metadata engine, wire framing) and proofs of the
spec claims about it.

Strings of the C++ code (paths, database values, payloads) are modelled
as lists of byte values (natural numbers below 256 where the code writes
bytes).  Machine integers are modelled as naturals or integers with
explicit reductions modulo 2 raised to the width where truncation occurs
in the code.  Field widths on this platform: sizeof(int) = 4,
sizeof(seal_size_t) = 4 (forced by HEADER_SIZE = 16 = 3 * sizeof(int) +
sizeof(seal_size_t) and the 4-byte field comments in connection.cpp),
sizeof(off_t) = 8, sizeof(size_t) = 8, sizeof(mode_t) = 4.
-/

namespace SealFS

/-- A byte string: the model of std::string and of raw byte buffers. -/
abbrev Bytes := List Nat

/-- ASCII bytes of a Lean string literal, for readable concrete inputs. -/
def s2b (s : String) : Bytes := s.data.map Char.toNat

/-- The byte value of the slash character. -/
def slash : Nat := 47

/- errno constants (Linux values); statuses travel negated. -/

def EPERM : Int := 1
def ENOENT : Int := 2
def Eio : Int := 5
def EEXIST : Int := 17
def ENOTDIR : Int := 20
def EISDIR : Int := 21
def ETIMEDOUT : Int := 110

/- protocol.hpp constants -/

def HEADER_SIZE : Nat := 16
def MAX_BUFFER_SIZE : Nat := 65535

/-- Little-endian encoding of a natural number into w bytes (what the
machine stores for a w-byte integer field). -/
def toLE : Nat → Nat → Bytes
  | 0, _ => []
  | w + 1, n => n % 256 :: toLE w (n / 256)

/-- Little-endian decoding of a byte list into a natural number (what a
w-byte integer load reads back). -/
def fromLE : Bytes → Nat
  | [] => 0
  | b :: bs => b + 256 * fromLE bs

/-- Signed interpretation of a 4-byte little-endian load (two's
complement), as the C code reads int and seal_size_t fields. -/
def toSigned32 (n : Nat) : Int :=
  if n % 2 ^ 32 < 2 ^ 31 then (n % 2 ^ 32 : Nat) else (n % 2 ^ 32 : Nat) - 2 ^ 32

/-!
## include/deamon/util.hpp
-/

/-- util.hpp add_dir: appends one length byte, the cast (char)(u_int8_t)
of the name's size (truncation modulo 256), followed by the name. -/
def add_dir (dirs dir : Bytes) : Bytes :=
  dirs ++ (dir.length % 256) :: dir

/-- The packed-directory-list decode loop of Connection::read_remote_dir
(connection.cpp lines 388-400): read one length byte, then that many
name bytes, until the buffer is exhausted. -/
def decode_dir_list : Bytes → List Bytes
  | [] => []
  | len :: rest => rest.take len :: decode_dir_list (rest.drop len)
termination_by b => b.length
decreasing_by simp [List.length_drop]; omega

/-!
## The metadata engine (src/deamon/engine.cpp)

The three leveldb instances are modelled as association lists with
put = prepend and get = first match; the daemon host filesystem is a
map from local file name to contents plus the set of host directories.
The random grenerate_local_file_name is modelled by passing the
generated name as an explicit argument.
-/

/-- Point lookup in an association-list map (leveldb Get: found or
NotFound; other store errors are outside the model). -/
def dbGet (m : List (Bytes × Bytes)) (k : Bytes) : Option Bytes :=
  (m.find? fun p => p.1 == k).map Prod.snd

/-- Point write in an association-list map (leveldb Put). -/
def dbPut (m : List (Bytes × Bytes)) (k v : Bytes) : List (Bytes × Bytes) :=
  (k, v) :: m

structure EngineState where
  /-- file_attr_db: path to "f" or "d" -/
  file_attr_db : List (Bytes × Bytes)
  /-- sub_dir_db: directory path to packed child list -/
  sub_dir_db : List (Bytes × Bytes)
  /-- file_db: file path to opaque local name -/
  file_db : List (Bytes × Bytes)
  /-- host filesystem files: local name to contents -/
  host_files : List (Bytes × Bytes)
  /-- host filesystem directories present -/
  host_dirs : List Bytes
deriving DecidableEq

/-- The parent-directory scan of Engine::create_file lines 93-99: the
index of the last slash plus one (the parent_path_length variable),
zero when the string holds no slash. -/
def parent_path_length : Bytes → Nat
  | [] => 0
  | c :: cs =>
    let r := parent_path_length cs
    if 0 < r then r + 1 else if c == slash then 1 else 0

/-- Engine::init (engine.cpp lines 7-41): wipe the three maps and seed
the root entries. -/
def engine_init : EngineState :=
  { file_attr_db := dbPut [] (s2b "/") (s2b "d")
    sub_dir_db := dbPut [] (s2b "/") (add_dir (add_dir [] (s2b ".")) (s2b ".."))
    file_db := dbPut [] (s2b "/") []
    host_files := []
    host_dirs := [] }

/-- Engine::create_file (engine.cpp lines 74-147).  localName stands for
the string returned by grenerate_local_file_name (rand is modelled by
making the name an argument); host mkdir/open/close are modelled as
succeeding, which is the only behaviour the settled claims quantify
over. -/
def create_file (s : EngineState) (path : Bytes) (localName : Bytes) :
    Int × EngineState :=
  if path.getLast? = some slash then (-EISDIR, s)
  else
    match dbGet s.file_attr_db path with
    | some _ => (-EEXIST, s)
    | none =>
      let ppl := parent_path_length path
      if ppl = 0 then (-Eio, s)
      else
        let parentKey := path.take ppl
        match dbGet s.sub_dir_db parentKey with
        | none => (-ENOENT, s)
        | some parentList =>
          let newDir := path.drop ppl
          let s1 := { s with
            sub_dir_db := dbPut s.sub_dir_db parentKey (add_dir parentList newDir) }
          let s2 := { s1 with file_attr_db := dbPut s1.file_attr_db path (s2b "f") }
          let s3 := { s2 with file_db := dbPut s2.file_db path localName }
          let dirPath := localName.take (parent_path_length localName - 1)
          let s4 := { s3 with
            host_dirs :=
              if s3.host_dirs.contains dirPath then s3.host_dirs
              else dirPath :: s3.host_dirs }
          let s5 := { s4 with
            host_files :=
              match dbGet s4.host_files localName with
              | some _ => s4.host_files
              | none => dbPut s4.host_files localName [] }
          (0, s5)

/-- Engine::create_dir (engine.cpp lines 149-204).  The parent scan
starts at path.size() - 2, skipping the trailing slash. -/
def create_dir (s : EngineState) (path : Bytes) : Int × EngineState :=
  if path.getLast? ≠ some slash then (-ENOTDIR, s)
  else
    match dbGet s.file_attr_db path with
    | some _ => (-EEXIST, s)
    | none =>
      let ppl := parent_path_length path.dropLast
      if ppl = 0 then (-Eio, s)
      else
        let parentKey := path.take ppl
        match dbGet s.sub_dir_db parentKey with
        | none => (-ENOENT, s)
        | some parentList =>
          let newDirs := add_dir parentList (path.drop ppl)
          let s1 := { s with sub_dir_db := dbPut s.sub_dir_db parentKey newDirs }
          let s2 := { s1 with
            sub_dir_db := dbPut s1.sub_dir_db path (add_dir (add_dir [] (s2b ".")) (s2b "..")) }
          let s3 := { s2 with file_attr_db := dbPut s2.file_attr_db path (s2b "d") }
          (0, s3)

/-- The stat fields the engine synthesizes (st_mode, st_nlink). -/
structure FileStat where
  st_mode : Nat
  st_nlink : Nat
deriving DecidableEq

def S_IFREG : Nat := 32768
def S_IFDIR : Nat := 16384

/-- Engine::get_file_attr (engine.cpp lines 206-223): the status and,
when the status is 0, the stat written into stbuf. -/
def get_file_attr (s : EngineState) (path : Bytes) : Int × Option FileStat :=
  match dbGet s.file_attr_db path with
  | none => (-ENOENT, none)
  | some v =>
    if v = s2b "f" then (0, some ⟨S_IFREG ||| 511, 1⟩)
    else if v = s2b "d" then (0, some ⟨S_IFDIR ||| 511, 2⟩)
    else (-ENOENT, none)

/-- Engine::read_file (engine.cpp lines 275-304): metadata checks, then
open of the local name (fails when the host file is absent), then pread
whose byte count the function ignores, returning the requested size. -/
def read_file (s : EngineState) (path : Bytes) (size : Nat) (offset : Nat) : Int :=
  match dbGet s.file_attr_db path with
  | none => -ENOENT
  | some v =>
    if v ≠ s2b "f" then -EISDIR
    else
      match dbGet s.file_db path with
      | none => -Eio
      | some localName =>
        match dbGet s.host_files localName with
        | none => -Eio
        | some _ => (size : Int)

/-- Modelled from the spec: the byte count a positional read of size
bytes at the given offset actually returns on a file with the given
contents (the quantity the claim says read_file returns). -/
def spec_bytes_read (contents : Bytes) (size offset : Nat) : Nat :=
  min size (contents.length - offset)

/-!
## The client connection (src/client/connection.cpp)
-/

/-- Connection::create_remote_dir (connection.cpp lines 302-308). -/
def create_remote_dir (connected : Bool) : Int :=
  if connected = false then -Eio else -EPERM

/-- Connection::open_remote_file (connection.cpp lines 407-413). -/
def open_remote_file (connected : Bool) : Int :=
  if connected = false then -Eio else -EPERM

/- Field widths (bytes) on the reference platform. -/

def sizeof_int : Nat := 4
def sizeof_seal_size_t : Nat := 4
def sizeof_off_t : Nat := 8
def sizeof_size_t : Nat := 8
def sizeof_mode_t : Nat := 4

/-- The length arguments one call of Connection::send_request receives:
total_length, path_length, meta_data_length, data_length. -/
structure SendArgs where
  total_length : Nat
  path_length : Nat
  meta_data_length : Nat
  data_length : Nat
deriving DecidableEq

/-- The assertion at the top of Connection::send_request (connection.cpp
line 205). -/
def send_request_assert (a : SendArgs) : Prop :=
  a.total_length =
    sizeof_seal_size_t * 3 + a.path_length + a.meta_data_length + a.data_length

instance (a : SendArgs) : Decidable (send_request_assert a) := by
  unfold send_request_assert; infer_instance

/-- The send_request arguments of Connection::create_remote_file
(connection.cpp lines 280-284). -/
def create_remote_file_args (path_length : Nat) : SendArgs :=
  ⟨sizeof_seal_size_t * 3 + path_length + sizeof_mode_t, path_length, sizeof_mode_t, 0⟩

/-- The send_request arguments of Connection::get_remote_file_attr
(connection.cpp lines 325-327). -/
def get_remote_file_attr_args (path_length : Nat) : SendArgs :=
  ⟨sizeof_seal_size_t * 3 + path_length, path_length, 0, 0⟩

/-- The send_request arguments of Connection::read_remote_dir
(connection.cpp lines 360-362). -/
def read_remote_dir_args (path_length : Nat) : SendArgs :=
  ⟨sizeof_seal_size_t * 3 + path_length, path_length, 0, 0⟩

/-- The send_request arguments of Connection::read_remote_file
(connection.cpp lines 428-430): total_length counts only the three
length fields and the path, yet meta and data lengths of sizeof(off_t)
and sizeof(seal_size_t) are passed. -/
def read_remote_file_args (path_length : Nat) : SendArgs :=
  ⟨sizeof_seal_size_t * 3 + path_length, path_length, sizeof_off_t, sizeof_seal_size_t⟩

/-- The send_request arguments of Connection::write_remote_file
(connection.cpp lines 471-477). -/
def write_remote_file_args (path_length size : Nat) : SendArgs :=
  ⟨sizeof_seal_size_t * 3 + path_length + (sizeof_off_t + sizeof_seal_size_t) + size,
    path_length, sizeof_off_t + sizeof_seal_size_t, size⟩

/-- The request body bytes send_request emits after the 16-byte header:
path_length, path, meta_data_length, meta, data_length, data, each
length a 4-byte seal_size_t (connection.cpp lines 231-266). -/
def send_request_body (path meta data : Bytes) : Bytes :=
  toLE sizeof_seal_size_t path.length ++ path ++
  toLE sizeof_seal_size_t meta.length ++ meta ++
  toLE sizeof_seal_size_t data.length ++ data

/-- The READ_FILE request body Connection::read_remote_file actually
transmits: meta is the 8-byte offset, data is the 4-byte size
(connection.cpp line 430 passes &offset as meta_data and &size as
data). -/
def read_remote_file_body (path : Bytes) (size offset : Nat) : Bytes :=
  send_request_body path (toLE sizeof_off_t offset) (toLE sizeof_seal_size_t size)

/-- Modelled from the spec: the READ_FILE body the payload table
describes, meta carrying size then offset and data empty. -/
def spec_read_file_body (path : Bytes) (size offset : Nat) : Bytes :=
  send_request_body path (toLE sizeof_seal_size_t size ++ toLE sizeof_off_t offset) []

/-- The READ_FILE field extraction of Server::operation_filter
(server.cpp lines 102-107): offset is an 8-byte off_t load right after
the meta_data_length field, size an 8-byte size_t load 8 bytes further,
truncated by the assignment to the 4-byte seal_size_t variable. -/
def operation_filter_read_file (buffer : Bytes) : Nat × Nat × Bytes :=
  let path_length := fromLE (buffer.take sizeof_seal_size_t)
  let path := (buffer.drop sizeof_seal_size_t).take path_length
  let offset := fromLE
    ((buffer.drop (sizeof_seal_size_t + path_length + sizeof_seal_size_t)).take sizeof_off_t)
  let size := fromLE
    ((buffer.drop
      (sizeof_seal_size_t + path_length + sizeof_seal_size_t + sizeof_off_t)).take
      sizeof_size_t) % 2 ^ 32
  (offset, size, path)

/-!
## Correlation slots and the receive loop
-/

/-- CallbackState of protocol.hpp. -/
inductive CallbackState where
  | EMPTY
  | IN_PROGRESS
  | DONE
deriving DecidableEq

/-- One correlation slot (struct OperationCallback, connection.hpp):
the fields the receive thread and the callers exchange. -/
structure OperationCallback where
  state : CallbackState
  status : Int
  meta_data : Bytes
  data : Bytes
  meta_data_length : Int
  data_length : Int
deriving DecidableEq

/-- The fixed table of MAX_BUFFER_SIZE slots. -/
abbrev Callbacks := Fin MAX_BUFFER_SIZE → OperationCallback

/-- Outcome of one iteration of Connection::recv_response: either the
thread disconnected and returned, or it reached the bottom of the loop
with the slot table and the not-yet-consumed byte stream as shown. -/
inductive RecvResult where
  | disc (callbacks : Callbacks)
  | cont (callbacks : Callbacks) (rest : Bytes)

/-- One iteration of Connection::recv_response (connection.cpp lines
100-200) on the byte stream the socket will deliver; a recv with
MSG_WAITALL comes back short exactly when the stream runs out, and a
negative requested count never completes.  The slot index reduction
modulo MAX_BUFFER_SIZE is the identity on the branch where it is used,
since the code has already checked 0 <= id < MAX_BUFFER_SIZE. -/
def recv_response_step (callbacks : Callbacks) (stream : Bytes) : RecvResult :=
  if stream.length < HEADER_SIZE then .disc callbacks
  else
    let id := toSigned32 (fromLE (stream.take 4))
    let status := toSigned32 (fromLE ((stream.drop 4).take 4))
    let total_length := toSigned32 (fromLE ((stream.drop 12).take 4))
    if id < 0 ∨ (MAX_BUFFER_SIZE : Int) ≤ id then .disc callbacks
    else
      let i : Fin MAX_BUFFER_SIZE :=
        ⟨id.toNat % MAX_BUFFER_SIZE, Nat.mod_lt _ (by norm_num [MAX_BUFFER_SIZE])⟩
      let rest := stream.drop HEADER_SIZE
      if (callbacks i).state ≠ CallbackState.IN_PROGRESS then
        if total_length < 0 then .disc callbacks
        else if rest.length < total_length.toNat then .disc callbacks
        else .cont callbacks (rest.drop total_length.toNat)
      else
        let cb1 := Function.update callbacks i { callbacks i with status := status }
        if total_length < 0 then .disc cb1
        else if rest.length < 4 then .disc cb1
        else
          let mdl := toSigned32 (fromLE (rest.take 4))
          let cb2 := Function.update cb1 i { cb1 i with meta_data_length := mdl }
          let rest1 := rest.drop 4
          if mdl < 0 then .disc cb2
          else if rest1.length < mdl.toNat then .disc cb2
          else
            let cb3 :=
              if 0 < mdl then
                Function.update cb2 i { cb2 i with meta_data := rest1.take mdl.toNat }
              else cb2
            let rest2 := rest1.drop mdl.toNat
            if rest2.length < 4 then .disc cb3
            else
              let dl := toSigned32 (fromLE (rest2.take 4))
              let cb4 := Function.update cb3 i { cb3 i with data_length := dl }
              let rest3 := rest2.drop 4
              if dl < 0 then .disc cb4
              else if rest3.length < dl.toNat then .disc cb4
              else
                let cb5 :=
                  if 0 < dl then
                    Function.update cb4 i { cb4 i with data := rest3.take dl.toNat }
                  else cb4
                let cb6 := Function.update cb5 i { cb5 i with state := CallbackState.DONE }
                .cont cb6 (rest3.drop dl.toNat)

/-!
## The await phase of each client operation

Each operation waits on its slot with a 3-second timeout; the functions
below are the code each one runs when the wait returns, as a function
of the slot state and status at that moment, yielding the returned
status and the slot state the operation leaves behind.
-/

/-- Connection::create_remote_file after the wait (lines 292-299). -/
def create_remote_file_await (state : CallbackState) (status : Int) :
    Int × CallbackState :=
  if state ≠ CallbackState.DONE then (-ETIMEDOUT, CallbackState.EMPTY)
  else (status, state)

/-- Connection::get_remote_file_attr after the wait (lines 337-344):
the timeout branch returns without resetting the slot state. -/
def get_remote_file_attr_await (state : CallbackState) (status : Int) :
    Int × CallbackState :=
  if state ≠ CallbackState.DONE then (-ETIMEDOUT, state)
  else (status, state)

/-- Connection::read_remote_dir after the wait (lines 373-385). -/
def read_remote_dir_await (state : CallbackState) (status : Int) :
    Int × CallbackState :=
  if state ≠ CallbackState.DONE then (-ETIMEDOUT, CallbackState.EMPTY)
  else if status < 0 then (status, CallbackState.EMPTY)
  else (0, state)

/-- Connection::read_remote_file after the wait (lines 441-456). -/
def read_remote_file_await (state : CallbackState) (status : Int) (size : Nat) :
    Int × CallbackState :=
  if state ≠ CallbackState.DONE then (-ETIMEDOUT, CallbackState.EMPTY)
  else if status < 0 then (status, CallbackState.EMPTY)
  else ((size : Int), state)

/-- Connection::write_remote_file after the wait (lines 487-494). -/
def write_remote_file_await (state : CallbackState) (status : Int) :
    Int × CallbackState :=
  if state ≠ CallbackState.DONE then (-ETIMEDOUT, CallbackState.EMPTY)
  else (status, state)

/-!
## Concrete fixtures used by witnesses and counterexamples
-/

/-- The flat byte form of a sequence of add_dir appends. -/
def encode_dir_list : List Bytes → Bytes
  | [] => []
  | n :: ns => (n.length % 256) :: n ++ encode_dir_list ns

/-- An engine state holding the root and one three-byte file /a, as
produced by init plus one create_file plus one three-byte write. -/
def fix_state : EngineState :=
  { file_attr_db := dbPut engine_init.file_attr_db (s2b "/a") (s2b "f")
    sub_dir_db :=
      dbPut engine_init.sub_dir_db (s2b "/")
        (add_dir (add_dir (add_dir [] (s2b ".")) (s2b "..")) (s2b "a"))
    file_db := dbPut engine_init.file_db (s2b "/a") (s2b "qq/rr")
    host_files := [(s2b "qq/rr", [104, 105, 33])]
    host_dirs := [s2b "qq"] }

/-- A slot table of empty slots. -/
def fix_callbacks : Callbacks :=
  fun _ => ⟨CallbackState.EMPTY, 0, [], [], 0, 0⟩

/-- A response stream: header with id 3, status 0, flags 0,
total_length 2, then a 2-byte body and one further byte. -/
def fix_stream : Bytes :=
  [3, 0, 0, 0] ++ [0, 0, 0, 0] ++ [0, 0, 0, 0] ++ [2, 0, 0, 0] ++ [9, 9, 7]

/-- The state produced by creating file /a in the fresh root. -/
def fix_created : EngineState :=
  (create_file engine_init (s2b "/a") (s2b "qq/rr")).2

/-- The state produced by creating directory /foo/ in the fresh root. -/
def fix_mkdir : EngineState :=
  (create_dir engine_init (s2b "/foo/")).2

/-!
## Helper lemmas
-/

theorem toLE_length (w n : Nat) : (toLE w n).length = w := by
  induction w generalizing n with
  | zero => rfl
  | succ w ih => simp [toLE, ih]

theorem fromLE_append (a b : Bytes) :
    fromLE (a ++ b) = fromLE a + 256 ^ a.length * fromLE b := by
  induction a with
  | nil => simp [fromLE]
  | cons x xs ih => simp [fromLE, ih, Nat.pow_succ]; ring

theorem fromLE_toLE (w n : Nat) : fromLE (toLE w n) = n % 256 ^ w := by
  induction w generalizing n with
  | zero => simp [toLE, fromLE, Nat.mod_one]
  | succ w ih =>
    simp only [toLE, fromLE, ih]
    rw [Nat.pow_succ, Nat.mul_comm (256 ^ w) 256, Nat.mod_mul]

theorem dbGet_dbPut (m : List (Bytes × Bytes)) (k v : Bytes) :
    dbGet (dbPut m k v) k = some v := by
  simp [dbGet, dbPut, List.find?]

theorem getLast?_cons_of_ne (c : Nat) (xs : Bytes) (h : xs ≠ []) :
    (c :: xs).getLast? = xs.getLast? := by
  cases xs with
  | nil => exact absurd rfl h
  | cons y ys => exact List.getLast?_cons_cons

theorem parent_path_length_le (p : Bytes) : parent_path_length p ≤ p.length := by
  induction p with
  | nil => simp [parent_path_length]
  | cons c cs ih =>
    simp only [parent_path_length, List.length_cons]
    split
    · omega
    · split <;> omega

theorem parent_path_length_eq_zero (p : Bytes) :
    parent_path_length p = 0 ↔ slash ∉ p := by
  induction p with
  | nil => simp [parent_path_length]
  | cons c cs ih =>
    simp only [parent_path_length, List.mem_cons]
    by_cases h0 : 0 < parent_path_length cs
    · have hmem : slash ∈ cs := by
        by_contra hmem
        exact absurd (ih.mpr hmem) (by omega)
      simp only [if_pos h0]
      constructor
      · intro hcontra; omega
      · intro hni; exact absurd (Or.inr hmem) hni
    · have hnmem : slash ∉ cs := ih.mp (by omega)
      simp only [if_neg h0]
      by_cases hc : c = slash
      · simp [hc]
      · have hb : (c == slash) = false := by simp [hc]
        simp [hb, hc, hnmem, eq_comm]

theorem parent_path_length_slash (p : Bytes) (h : 0 < parent_path_length p) :
    (p.take (parent_path_length p)).getLast? = some slash := by
  induction p with
  | nil => simp [parent_path_length] at h
  | cons c cs ih =>
    simp only [parent_path_length] at h ⊢
    split
    · next hr =>
      have hle := parent_path_length_le cs
      have hne : cs.take (parent_path_length cs) ≠ [] := by
        intro hnil
        rcases List.take_eq_nil_iff.mp hnil with hz | hz
        · omega
        · subst hz; simp [parent_path_length] at hr
      rw [List.take_succ_cons, getLast?_cons_of_ne c _ hne]
      exact ih hr
    · next hr =>
      split
      · next hc =>
        simp [List.take_succ_cons, beq_iff_eq.mp hc]
      · next hc => simp [hr, hc] at h

theorem parent_path_length_max (p : Bytes) (k : Nat) (hk : k ≤ p.length)
    (hs : (p.take k).getLast? = some slash) : k ≤ parent_path_length p := by
  induction p generalizing k with
  | nil =>
    simp only [List.length_nil, Nat.le_zero] at hk
    subst hk
    simp at hs
  | cons c cs ih =>
    match k with
    | 0 => omega
    | j + 1 =>
      rw [List.take_succ_cons] at hs
      simp only [parent_path_length]
      by_cases hj : cs.take j = []
      · have hj0' : j = 0 := by
          rcases List.take_eq_nil_iff.mp hj with h | h
          · exact h
          · simp [h] at hk; omega
        subst hj0'
        simp [hj] at hs
        simp only [hs]
        simp only [beq_self_eq_true, if_true]
        split <;> omega
      · rw [getLast?_cons_of_ne c _ hj] at hs
        have hjk : j ≤ cs.length := by simp at hk; omega
        have hle := ih j hjk hs
        have hj1 : j ≠ 0 := by
          intro h0; subst h0; simp at hj
        split <;> omega

theorem foldl_add_dir (names : List Bytes) (acc : Bytes) :
    names.foldl add_dir acc = acc ++ encode_dir_list names := by
  induction names generalizing acc with
  | nil => simp [encode_dir_list]
  | cons n ns ih =>
    simp only [List.foldl_cons, encode_dir_list, ih, add_dir]
    simp [List.append_assoc]

theorem decode_encode_dir_list (names : List Bytes)
    (h : ∀ n ∈ names, n.length ≤ 255) :
    decode_dir_list (encode_dir_list names) = names := by
  induction names with
  | nil => simp [encode_dir_list, decode_dir_list]
  | cons n ns ih =>
    have hn : n.length ≤ 255 := h n (by simp)
    have hmod : n.length % 256 = n.length := Nat.mod_eq_of_lt (by omega)
    simp only [encode_dir_list, hmod]
    rw [decode_dir_list.eq_def]
    show (n ++ encode_dir_list ns).take n.length ::
      decode_dir_list ((n ++ encode_dir_list ns).drop n.length) = n :: ns
    rw [List.take_left' rfl, List.drop_left' rfl]
    rw [ih fun m hm => h m (by simp [hm])]

/-!
## Claims
-/

/-- Claim C1, counterexample: with the connection up, the client mkdir
(Connection::create_remote_dir) returns -EPERM rather than 0, and open
(Connection::open_remote_file) returns -EPERM rather than success. -/
theorem create_remote_dir_open_eperm :
    create_remote_dir true = -EPERM
  ∧ open_remote_file true = -EPERM
  ∧ (-EPERM : Int) ≠ 0 := by decide

/-- Claim C1, amended: create_remote_dir and open_remote_file are
unimplemented stubs returning -EPERM whenever the connection is up and
-EIO when it is down; the daemon engine itself does support directory
creation (create_dir of /foo/ in the freshly initialized root returns
status 0), but the client never issues it. -/
theorem client_mkdir_open_unsupported :
    (∀ c : Bool, create_remote_dir c = if c then -EPERM else -Eio)
  ∧ (∀ c : Bool, open_remote_file c = if c then -EPERM else -Eio)
  ∧ (create_dir engine_init (s2b "/foo/")).1 = 0 := by
  refine ⟨?_, ?_, by decide⟩ <;> decide

/-- Claim C2, counterexample: on a stored file of three bytes, read_file
with size 10 at offset 0 returns 10 even though the positional read can
deliver only 3 bytes; the function does not return the bytes read. -/
theorem read_file_not_bytes_read :
    read_file fix_state (s2b "/a") 10 0 = 10
  ∧ spec_bytes_read [104, 105, 33] 10 0 = 3
  ∧ ((10 : Int) ≠ (3 : Int)) := by decide

/-- Claim C2, amended: for every file path present in attr as "f" with a
loc entry, read_file returns the requested size (not the count the
positional read delivered) whenever the host file opens, and -EIO when
the host open fails. -/
theorem read_file_returns_requested_size :
    (∀ s : EngineState, ∀ path localName contents : Bytes, ∀ size offset : Nat,
      dbGet s.file_attr_db path = some (s2b "f") →
      dbGet s.file_db path = some localName →
      dbGet s.host_files localName = some contents →
      read_file s path size offset = (size : Int))
  ∧ (∀ s : EngineState, ∀ path localName : Bytes, ∀ size offset : Nat,
      dbGet s.file_attr_db path = some (s2b "f") →
      dbGet s.file_db path = some localName →
      dbGet s.host_files localName = none →
      read_file s path size offset = -Eio) := by
  constructor
  · intro s path localName contents size offset hattr hloc hhost
    simp [read_file, hattr, hloc, hhost]
  · intro s path localName size offset hattr hloc hhost
    simp [read_file, hattr, hloc, hhost]

/-- Witness for the amended C2 theorem at a concrete state. -/
theorem read_file_returns_requested_size_witness :
    read_file fix_state (s2b "/a") 7 1 = 7 :=
  read_file_returns_requested_size.1 fix_state (s2b "/a") (s2b "qq/rr")
    [104, 105, 33] 7 1 (by decide) (by decide) (by decide)

/-- Claim C3: the send_request assertion total_length = 3 sizeof(L) +
path_length + meta_data_length + data_length holds for the argument
tuples of create_remote_file, get_remote_file_attr, read_remote_dir and
write_remote_file, but fails for every read_remote_file call, whose
total_length omits the meta and data lengths it passes. -/
theorem send_request_assert_by_op :
    (∀ pl, send_request_assert (create_remote_file_args pl))
  ∧ (∀ pl, send_request_assert (get_remote_file_attr_args pl))
  ∧ (∀ pl, send_request_assert (read_remote_dir_args pl))
  ∧ (∀ pl size, send_request_assert (write_remote_file_args pl size))
  ∧ (∀ pl, ¬ send_request_assert (read_remote_file_args pl)) := by
  refine ⟨fun pl => ?_, fun pl => ?_, fun pl => ?_, fun pl size => ?_, fun pl => ?_⟩ <;>
    simp [send_request_assert, create_remote_file_args, get_remote_file_attr_args,
      read_remote_dir_args, write_remote_file_args, read_remote_file_args,
      sizeof_seal_size_t, sizeof_off_t, sizeof_mode_t] <;> omega

/-- Witness for C3 at path_length 2 (path "/a"): the equation holds for
a CREATE_FILE frame and fails for the READ_FILE frame. -/
theorem send_request_assert_by_op_witness :
    send_request_assert (create_remote_file_args 2)
  ∧ ¬ send_request_assert (read_remote_file_args 2) :=
  ⟨send_request_assert_by_op.1 2, send_request_assert_by_op.2.2.2.2 2⟩

/-- Claim C5: at the moment the 3-second wait expires with the slot
still IN_PROGRESS, create_remote_file, read_remote_dir,
read_remote_file and write_remote_file reset the slot to EMPTY and
return -ETIMEDOUT, but get_remote_file_attr returns -ETIMEDOUT leaving
the slot IN_PROGRESS, so the claim fails for it. -/
theorem timeout_slot_reset_by_op :
    get_remote_file_attr_await CallbackState.IN_PROGRESS 0 =
      (-ETIMEDOUT, CallbackState.IN_PROGRESS)
  ∧ create_remote_file_await CallbackState.IN_PROGRESS 0 =
      (-ETIMEDOUT, CallbackState.EMPTY)
  ∧ read_remote_dir_await CallbackState.IN_PROGRESS 0 =
      (-ETIMEDOUT, CallbackState.EMPTY)
  ∧ read_remote_file_await CallbackState.IN_PROGRESS 0 5 =
      (-ETIMEDOUT, CallbackState.EMPTY)
  ∧ write_remote_file_await CallbackState.IN_PROGRESS 0 =
      (-ETIMEDOUT, CallbackState.EMPTY) := by decide

/-- Claim C10: add_dir appends one length byte, the name's length
reduced modulo 256, then the name's bytes; the byte equals the length
exactly when the length is at most 255; and the packed list decodes
back to the appended names when every name is at most 255 bytes. -/
theorem add_dir_length_byte :
    (∀ dirs dir : Bytes, add_dir dirs dir = dirs ++ (dir.length % 256) :: dir)
  ∧ (∀ dirs dir : Bytes, dir.length ≤ 255 →
      (add_dir dirs dir)[dirs.length]? = some dir.length)
  ∧ (∀ dirs dir : Bytes, 255 < dir.length →
      (add_dir dirs dir)[dirs.length]? ≠ some dir.length)
  ∧ (∀ names : List Bytes, (∀ n ∈ names, n.length ≤ 255) →
      decode_dir_list (names.foldl add_dir []) = names) := by
  refine ⟨fun dirs dir => rfl, ?_, ?_, ?_⟩
  · intro dirs dir h
    show (dirs ++ (dir.length % 256) :: dir)[dirs.length]? = some dir.length
    rw [List.getElem?_append_right (Nat.le_refl _)]
    simp [Nat.mod_eq_of_lt (show dir.length < 256 by omega)]
  · intro dirs dir h hcontra
    rw [show add_dir dirs dir = dirs ++ (dir.length % 256) :: dir from rfl,
      List.getElem?_append_right (Nat.le_refl _)] at hcontra
    simp at hcontra
    have := Nat.mod_lt dir.length (show 0 < 256 by norm_num)
    omega
  · intro names h
    rw [foldl_add_dir, List.nil_append]
    exact decode_encode_dir_list names h

/-- Witness for C10: three concrete names, among them the root entries,
round-trip through add_dir packing and the client decode loop. -/
theorem add_dir_length_byte_witness :
    decode_dir_list ([s2b ".", s2b "..", s2b "foo/"].foldl add_dir []) =
      [s2b ".", s2b "..", s2b "foo/"] :=
  add_dir_length_byte.2.2.2 [s2b ".", s2b "..", s2b "foo/"] (by decide)

/-- Claim C4, counterexample: for path "/a", size 5, offset 7, the
READ_FILE body the client transmits differs from the body the claimed
layout (meta carrying size then offset, data empty) would produce. -/
theorem read_file_body_layout_differs :
    read_remote_file_body (s2b "/a") 5 7 ≠ spec_read_file_body (s2b "/a") 5 7 := by
  decide

/-- Claim C4, amended: every READ_FILE request the client sends carries
the 8-byte offset as the meta payload and the 4-byte size as the data
payload (not size then offset in meta with empty data); the daemon
off_t load at the start of the meta region recovers the offset, while
its size load 8 bytes further lands on the data_length field of the
transmitted byte sequence and always yields sizeof(seal_size_t) = 4,
never the requested size. -/
theorem read_file_wire_layout (path : Bytes) (size offset : Nat)
    (hpl : path.length < 2 ^ 32) (hsz : size < 2 ^ 32) (hoff : offset < 2 ^ 64) :
    read_remote_file_body path size offset =
      toLE 4 path.length ++ path ++ toLE 4 8 ++ toLE 8 offset ++ toLE 4 4 ++ toLE 4 size
  ∧ operation_filter_read_file (read_remote_file_body path size offset) =
      (offset, 4, path) := by
  have hbody : read_remote_file_body path size offset =
      toLE 4 path.length ++ path ++ toLE 4 8 ++ toLE 8 offset ++ toLE 4 4 ++ toLE 4 size := by
    simp [read_remote_file_body, send_request_body, sizeof_off_t, sizeof_seal_size_t,
      toLE_length]
  refine ⟨hbody, ?_⟩
  rw [hbody]
  have e1 : toLE 4 path.length ++ path ++ toLE 4 8 ++ toLE 8 offset ++ toLE 4 4 ++
      toLE 4 size =
      toLE 4 path.length ++
        (path ++ (toLE 4 8 ++ (toLE 8 offset ++ (toLE 4 4 ++ toLE 4 size)))) := by
    simp [List.append_assoc]
  have e2 : toLE 4 path.length ++ path ++ toLE 4 8 ++ toLE 8 offset ++ toLE 4 4 ++
      toLE 4 size =
      (toLE 4 path.length ++ path ++ toLE 4 8) ++
        (toLE 8 offset ++ (toLE 4 4 ++ toLE 4 size)) := by
    simp [List.append_assoc]
  have e3 : toLE 4 path.length ++ path ++ toLE 4 8 ++ toLE 8 offset ++ toLE 4 4 ++
      toLE 4 size =
      (toLE 4 path.length ++ path ++ toLE 4 8 ++ toLE 8 offset) ++
        (toLE 4 4 ++ toLE 4 size) := by
    simp [List.append_assoc]
  have hlen1 : (toLE 4 path.length ++ path ++ toLE 4 8).length =
      4 + path.length + 4 := by
    simp [toLE_length]; omega
  have hlen2 : (toLE 4 path.length ++ path ++ toLE 4 8 ++ toLE 8 offset).length =
      4 + path.length + 4 + 8 := by
    simp [toLE_length]; omega
  have htake4 : (toLE 4 path.length ++ path ++ toLE 4 8 ++ toLE 8 offset ++ toLE 4 4 ++
      toLE 4 size).take 4 = toLE 4 path.length := by
    rw [e1, List.take_left' (toLE_length 4 path.length)]
  have hplv : fromLE ((toLE 4 path.length ++ path ++ toLE 4 8 ++ toLE 8 offset ++
      toLE 4 4 ++ toLE 4 size).take 4) = path.length := by
    rw [htake4, fromLE_toLE]
    exact Nat.mod_eq_of_lt (by norm_num at hpl ⊢; omega)
  have hdrop4 : (toLE 4 path.length ++ path ++ toLE 4 8 ++ toLE 8 offset ++ toLE 4 4 ++
      toLE 4 size).drop 4 =
      path ++ (toLE 4 8 ++ (toLE 8 offset ++ (toLE 4 4 ++ toLE 4 size))) := by
    rw [e1, List.drop_left' (toLE_length 4 path.length)]
  have hpath : ((toLE 4 path.length ++ path ++ toLE 4 8 ++ toLE 8 offset ++ toLE 4 4 ++
      toLE 4 size).drop 4).take path.length = path := by
    rw [hdrop4, List.take_left' rfl]
  have hdropMeta : (toLE 4 path.length ++ path ++ toLE 4 8 ++ toLE 8 offset ++
      toLE 4 4 ++ toLE 4 size).drop (4 + path.length + 4) =
      toLE 8 offset ++ (toLE 4 4 ++ toLE 4 size) := by
    rw [e2, List.drop_left' hlen1]
  have hoffv : fromLE (((toLE 4 path.length ++ path ++ toLE 4 8 ++ toLE 8 offset ++
      toLE 4 4 ++ toLE 4 size).drop (4 + path.length + 4)).take 8) = offset := by
    rw [hdropMeta, List.take_left' (toLE_length 8 offset), fromLE_toLE]
    exact Nat.mod_eq_of_lt (by norm_num at hoff ⊢; omega)
  have hdropOff : (toLE 4 path.length ++ path ++ toLE 4 8 ++ toLE 8 offset ++
      toLE 4 4 ++ toLE 4 size).drop (4 + path.length + 4 + 8) =
      toLE 4 4 ++ toLE 4 size := by
    rw [e3, List.drop_left' hlen2]
  have hsizev : fromLE (((toLE 4 path.length ++ path ++ toLE 4 8 ++ toLE 8 offset ++
      toLE 4 4 ++ toLE 4 size).drop (4 + path.length + 4 + 8)).take 8) % 2 ^ 32 = 4 := by
    rw [hdropOff]
    rw [show (8 : Nat) = (toLE 4 4 ++ toLE 4 size).length by simp [toLE_length],
      List.take_length]
    rw [fromLE_append, fromLE_toLE, fromLE_toLE, toLE_length]
    have h4 : (4 : Nat) % 256 ^ 4 = 4 := by norm_num
    rw [h4]
    have : (256 : Nat) ^ 4 = 2 ^ 32 := by norm_num
    rw [this, Nat.add_mul_mod_self_left]
    norm_num
  simp only [operation_filter_read_file, sizeof_seal_size_t, sizeof_off_t, sizeof_size_t]
  rw [hplv, hpath, hoffv, hsizev]

/-- Witness for the amended C4 theorem at path "/a", size 5, offset 7:
the daemon recovers offset 7 but size 4. -/
theorem read_file_wire_layout_witness :
    operation_filter_read_file (read_remote_file_body (s2b "/a") 5 7) = (7, 4, s2b "/a") :=
  (read_file_wire_layout (s2b "/a") 5 7 (by norm_num [s2b]) (by norm_num)
    (by norm_num)).2

/-- Claim C8: when the receive thread reads a header whose id is in
range but whose slot is not IN_PROGRESS, it consumes exactly
total_length bytes beyond the header, leaves every slot of the table
unchanged and reaches the bottom of the loop without disconnecting. -/
theorem recv_response_late_drain (cb : Callbacks) (stream : Bytes)
    (i : Fin MAX_BUFFER_SIZE) (tl : Nat)
    (hid : toSigned32 (fromLE (stream.take 4)) = (i.val : Int))
    (htl : toSigned32 (fromLE ((stream.drop 12).take 4)) = (tl : Int))
    (hst : (cb i).state ≠ CallbackState.IN_PROGRESS)
    (hav : HEADER_SIZE + tl ≤ stream.length) :
    recv_response_step cb stream =
      RecvResult.cont cb ((stream.drop HEADER_SIZE).drop tl) := by
  have hilt : i.val < 65535 := by
    have := i.isLt
    simpa [MAX_BUFFER_SIZE] using this
  simp only [recv_response_step, hid, htl]
  rw [if_neg (by simp [HEADER_SIZE] at hav ⊢; omega)]
  rw [if_neg (by
    push_neg
    constructor
    · exact Int.natCast_nonneg _
    · simp [MAX_BUFFER_SIZE])]
  have hfin : (⟨((i.val : Int)).toNat % MAX_BUFFER_SIZE,
      Nat.mod_lt _ (by norm_num [MAX_BUFFER_SIZE])⟩ : Fin MAX_BUFFER_SIZE) = i := by
    apply Fin.ext
    simp [Int.toNat_natCast, Nat.mod_eq_of_lt i.isLt]
  rw [hfin]
  rw [if_pos hst]
  rw [if_neg (by exact not_lt.mpr (Int.natCast_nonneg tl))]
  rw [if_neg (by
    simp [List.length_drop, Int.toNat_natCast, HEADER_SIZE] at hav ⊢
    omega)]
  simp [Int.toNat_natCast, HEADER_SIZE]

/-- Witness for C8: a concrete stream addressing empty slot 3 with
total_length 2 is drained to the byte after its 2-byte body, with the
slot table untouched. -/
theorem recv_response_late_drain_witness :
    recv_response_step fix_callbacks fix_stream =
      RecvResult.cont fix_callbacks [7] := by
  have h := recv_response_late_drain fix_callbacks fix_stream
    ⟨3, by norm_num [MAX_BUFFER_SIZE]⟩ 2 (by decide) (by decide) (by decide) (by decide)
  exact h

theorem create_file_success (s s1 : EngineState) (path localName : Bytes)
    (h : create_file s path localName = (0, s1)) :
    path.getLast? ≠ some slash
  ∧ dbGet s.file_attr_db path = none
  ∧ s1.file_attr_db = dbPut s.file_attr_db path (s2b "f") := by
  simp only [create_file] at h
  split at h
  · norm_num [Prod.mk.injEq, EISDIR] at h
  · split at h
    · norm_num [Prod.mk.injEq, EEXIST] at h
    · next hns _ hattr =>
      split at h
      · norm_num [Prod.mk.injEq, Eio] at h
      · split at h
        · norm_num [Prod.mk.injEq, ENOENT] at h
        · obtain ⟨-, h2⟩ := Prod.mk.injEq .. |>.mp h
          exact ⟨hns, hattr, by rw [← h2]⟩

theorem create_dir_success (s s1 : EngineState) (path : Bytes)
    (h : create_dir s path = (0, s1)) :
    path.getLast? = some slash
  ∧ dbGet s.file_attr_db path = none
  ∧ s1.file_attr_db = dbPut s.file_attr_db path (s2b "d") := by
  simp only [create_dir] at h
  split at h
  · norm_num [Prod.mk.injEq, ENOTDIR] at h
  · next hns =>
    split at h
    · norm_num [Prod.mk.injEq, EEXIST] at h
    · next hattr =>
      split at h
      · norm_num [Prod.mk.injEq, Eio] at h
      · split at h
        · norm_num [Prod.mk.injEq, ENOENT] at h
        · obtain ⟨-, h2⟩ := Prod.mk.injEq .. |>.mp h
          refine ⟨not_not.mp hns, hattr, by rw [← h2]⟩

/-- Claim C9: whenever create_file returns -EISDIR, -EEXIST or -ENOENT,
the state it returns is exactly the input state: all three checks
precede the first Put, so no namespace or host-filesystem write has
happened. -/
theorem create_file_error_no_write (s s1 : EngineState) (path localName : Bytes)
    (r : Int) (h : create_file s path localName = (r, s1))
    (hr : r = -EISDIR ∨ r = -EEXIST ∨ r = -ENOENT) : s1 = s := by
  simp only [create_file] at h
  split at h
  · injection h with h1 h2; exact h2.symm
  · split at h
    · injection h with h1 h2; exact h2.symm
    · split at h
      · injection h with h1 h2
        rcases hr with hx | hx | hx <;>
          norm_num [← h1, Eio, EISDIR, EEXIST, ENOENT] at hx
      · split at h
        · injection h with h1 h2; exact h2.symm
        · injection h with h1 h2
          rcases hr with hx | hx | hx <;>
            norm_num [← h1, EISDIR, EEXIST, ENOENT] at hx

/-- Witness for C9: create_file of /a/b in the fresh root fails with
-ENOENT (parent /a/ absent) and leaves the state untouched. -/
theorem create_file_error_no_write_witness :
    (create_file engine_init (s2b "/a/b") (s2b "xx/yy")).2 = engine_init :=
  create_file_error_no_write engine_init _ (s2b "/a/b") (s2b "xx/yy") (-ENOENT)
    (by decide) (Or.inr (Or.inr rfl))

/-- Claim C7: a create_file that returns 0 makes get_file_attr of that
path return 0 with mode S_IFREG bitor 0777 and nlink 1, and a
create_dir that returns 0 makes get_file_attr return 0 with mode
S_IFDIR bitor 0777 and nlink 2. -/
theorem create_then_get_file_attr (s sf sd : EngineState)
    (pf pd localName : Bytes)
    (hf : create_file s pf localName = (0, sf))
    (hd : create_dir s pd = (0, sd)) :
    get_file_attr sf pf = (0, some ⟨S_IFREG ||| 511, 1⟩)
  ∧ get_file_attr sd pd = (0, some ⟨S_IFDIR ||| 511, 2⟩) := by
  obtain ⟨-, -, hattr⟩ := create_file_success s sf pf localName hf
  obtain ⟨-, -, hattr2⟩ := create_dir_success s sd pd hd
  constructor
  · simp [get_file_attr, hattr, dbGet_dbPut]
  · simp [get_file_attr, hattr2, dbGet_dbPut]
    decide

/-- Witness for C7: file /a and directory /foo/ created in the fresh
root report the synthesized stats. -/
theorem create_then_get_file_attr_witness :
    get_file_attr fix_created (s2b "/a") = (0, some ⟨S_IFREG ||| 511, 1⟩)
  ∧ get_file_attr fix_mkdir (s2b "/foo/") = (0, some ⟨S_IFDIR ||| 511, 2⟩) :=
  create_then_get_file_attr engine_init fix_created fix_mkdir (s2b "/a")
    (s2b "/foo/") (s2b "qq/rr") (by decide) (by decide)

/-- Claim C6: create_file returns -EISDIR on a trailing slash, else
-EEXIST on an existing attr entry, else -EIO when the path holds no
slash, else -ENOENT when the parent key (the longest slash-terminated
proper prefix, which the scan computes) has no dir record; and a second
create_file of a path just created returns -EEXIST. -/
theorem create_file_error_cases (s : EngineState)
    (path localName localName2 : Bytes) :
    (path.getLast? = some slash → create_file s path localName = (-EISDIR, s))
  ∧ (path.getLast? ≠ some slash →
      ∀ v, dbGet s.file_attr_db path = some v →
        create_file s path localName = (-EEXIST, s))
  ∧ (path.getLast? ≠ some slash → dbGet s.file_attr_db path = none →
      slash ∉ path → create_file s path localName = (-Eio, s))
  ∧ (path.getLast? ≠ some slash → dbGet s.file_attr_db path = none →
      slash ∈ path →
      dbGet s.sub_dir_db (path.take (parent_path_length path)) = none →
      create_file s path localName = (-ENOENT, s))
  ∧ (slash ∈ path →
      (path.take (parent_path_length path)).getLast? = some slash
      ∧ (path.getLast? ≠ some slash → parent_path_length path < path.length)
      ∧ ∀ k, k ≤ path.length → (path.take k).getLast? = some slash →
          k ≤ parent_path_length path)
  ∧ (∀ s1, create_file s path localName = (0, s1) →
      create_file s1 path localName2 = (-EEXIST, s1)) := by
  refine ⟨?_, ?_, ?_, ?_, ?_, ?_⟩
  · intro h
    unfold create_file
    rw [if_pos h]
  · intro h v hv
    simp [create_file, h, hv]
  · intro h hattr hmem
    have hppl : parent_path_length path = 0 := (parent_path_length_eq_zero path).mpr hmem
    simp [create_file, h, hattr, hppl]
  · intro h hattr hmem hdir
    have hppl : parent_path_length path ≠ 0 := fun hz =>
      ((parent_path_length_eq_zero path).mp hz) hmem
    simp [create_file, h, hattr, hppl, hdir]
  · intro hmem
    have hppl : parent_path_length path ≠ 0 := fun hz =>
      ((parent_path_length_eq_zero path).mp hz) hmem
    refine ⟨parent_path_length_slash path (by omega), ?_, ?_⟩
    · intro hns
      have hle := parent_path_length_le path
      rcases Nat.lt_or_ge (parent_path_length path) path.length with hlt | hge
      · exact hlt
      · exfalso
        have heq : parent_path_length path = path.length := by omega
        have := parent_path_length_slash path (by omega)
        rw [heq, List.take_length] at this
        exact hns this
    · exact fun k hk hs => parent_path_length_max path k hk hs
  · intro s1 h1
    obtain ⟨hns, -, hattr⟩ := create_file_success s s1 path localName h1
    simp [create_file, hns, hattr, dbGet_dbPut]

/-- Witness for C6: creating /a twice from the fresh root yields 0 then
-EEXIST. -/
theorem create_file_error_cases_witness :
    create_file fix_created (s2b "/a") (s2b "zz/ww") = (-EEXIST, fix_created) :=
  (create_file_error_cases engine_init (s2b "/a") (s2b "qq/rr")
    (s2b "zz/ww")).2.2.2.2.2 fix_created (by decide)

end SealFS
